import Mathlib

/-!
Verification of the SSD1306 OLED driver core (ssd1306.h / ssd1306.c).

The driver owns a packed monochrome framebuffer (128×64 pixels, 8 pages of
128 column bytes, LSB = topmost row of a page) and talks to the controller
over a two-wire bus.  The embedding below translates the C driver into Lean:

* machine integers become `Nat` (for the unsigned values: coordinates and
  bytes are reduced `% 256` exactly where C converts `int` to `uint8_t`)
  and `Int` (for the C `int` arithmetic inside the algorithms);
* the framebuffer `uint8_t video_memory[1024]` becomes a total function
  `Nat → Nat` read and written at the same indices the C code uses;
* the opaque bus (`i2c_write_blocking`) becomes an oracle giving the
  accepted byte count of the k-th transfer; every operation threads the
  call counter `k` and records the frames it put on the wire;
* the `while` loops of the line and circle algorithms become fuel-indexed
  or well-founded recursions over the same state variables.
-/

/-- Horizontal resolution in pixels (`OLED_SCREEN_WIDTH`). -/
def OLED_SCREEN_WIDTH : Nat := 128

/-- Vertical resolution in pixels (`OLED_SCREEN_HEIGHT`). -/
def OLED_SCREEN_HEIGHT : Nat := 64

/-- Number of memory pages, each page being 8 pixel rows (`OLED_MEMORY_PAGES`). -/
def OLED_MEMORY_PAGES : Nat := OLED_SCREEN_HEIGHT / 8

/-- Size of the video buffer in bytes (`OLED_VIDEO_BUFFER_SIZE`). -/
def OLED_VIDEO_BUFFER_SIZE : Nat := OLED_SCREEN_WIDTH * OLED_MEMORY_PAGES

/-- Control byte prefixing a command transfer (`OLED_CMD_CONTROL_BYTE`). -/
def OLED_CMD_CONTROL_BYTE : Nat := 0x00

/-- Control byte prefixing a data transfer (`OLED_DATA_CONTROL_BYTE`). -/
def OLED_DATA_CONTROL_BYTE : Nat := 0x40

/-- Contrast select command (`CMD_SET_BRIGHTNESS`). -/
def CMD_SET_BRIGHTNESS : Nat := 0x81

/-- Column address range command (`CMD_COLUMN_ADDRESS_RANGE`). -/
def CMD_COLUMN_ADDRESS_RANGE : Nat := 0x21

/-- Page address range command (`CMD_PAGE_ADDRESS_RANGE`). -/
def CMD_PAGE_ADDRESS_RANGE : Nat := 0x22

/-- Default contrast level (`OLED_DEFAULT_BRIGHTNESS`, 0xCF). -/
def OLED_DEFAULT_BRIGHTNESS : Nat := 0xCF

/-- Device record `oled_device_t`.  The C struct also holds the opaque
`i2c_inst_t *i2c_interface`; the bus is modelled separately as a response
oracle (`i2c_wire_t`) passed to each operation, so the handle itself is
dropped from the record. -/
structure oled_device_t where
  device_address : Nat
  screen_width : Nat
  screen_height : Nat
  video_memory : Nat → Nat
  power_state : Bool
  contrast_level : Nat
  inverted_colors : Bool

/-- Behaviour of the two-wire bus: `resp k` is the value `i2c_write_blocking`
returns (number of bytes accepted, or a negative error code) for the k-th
write the driver performs. -/
structure i2c_wire_t where
  resp : Nat → Int

/-- Embedding of `transmit_command`: frames `[0x00, command_byte]`, performs
one bus write and succeeds iff the transport reports exactly 2 bytes
accepted.  Returns (status, next call index, frames written). -/
def transmit_command (device : oled_device_t) (command_byte : Nat)
    (wire : i2c_wire_t) (k : Nat) : Bool × Nat × List (List Nat) :=
  let transmission_buffer := [OLED_CMD_CONTROL_BYTE, command_byte]
  (wire.resp k == 2, k + 1, [transmission_buffer])

/-- Embedding of `transmit_command_sequence`: serial `transmit_command` for
each element; the per-command status is discarded, exactly as the C source
ignores the return value of each `transmit_command` call. -/
def transmit_command_sequence (device : oled_device_t) (command_array : List Nat)
    (wire : i2c_wire_t) (k : Nat) : Nat × List (List Nat) :=
  command_array.foldl
    (fun acc cmd =>
      let r := transmit_command device cmd wire acc.1
      (r.2.1, acc.2 ++ r.2.2))
    (k, [])

/-- Embedding of `transfer_video_data`: stages `[0x40, data...]` in one
buffer, performs one bus write of `data_length + 1` bytes and succeeds iff
the transport reports exactly that count.  The C `malloc` of the staging
buffer is assumed to succeed (heap exhaustion is outside the model). -/
def transfer_video_data (device : oled_device_t) (data : List Nat)
    (wire : i2c_wire_t) (k : Nat) : Bool × Nat × List (List Nat) :=
  let transfer_buffer := OLED_DATA_CONTROL_BYTE :: data
  (wire.resp k == (transfer_buffer.length : Int), k + 1, [transfer_buffer])

/-- Embedding of `oled_refresh_screen`: programs the full-screen window
(six command transfers, results ignored) and then pushes the whole video
buffer through `transfer_video_data`.  The device is returned unchanged:
the C function only reads `device->video_memory`. -/
def oled_refresh_screen (device : oled_device_t) (wire : i2c_wire_t) (k : Nat) :
    oled_device_t × Bool × Nat × List (List Nat) :=
  let display_window_config : List Nat :=
    [CMD_COLUMN_ADDRESS_RANGE, 0x00, 0x7F, CMD_PAGE_ADDRESS_RANGE, 0x00, 0x07]
  let c := transmit_command_sequence device display_window_config wire k
  let d := transfer_video_data device
    ((List.range OLED_VIDEO_BUFFER_SIZE).map device.video_memory) wire c.1
  (device, d.1, d.2.1, c.2 ++ d.2.2)

/-- Embedding of `oled_draw_pixel`: out-of-range coordinates return the
device unchanged; otherwise byte `x + (y >> 3) * 128` has bit `1 << (y & 7)`
set (`|=`) or cleared (`&= ~bit`, i.e. `&&& (255 ^^^ bit)` on a byte). -/
def oled_draw_pixel (device : oled_device_t) (x_pos y_pos : Nat) (pixel_on : Bool) :
    oled_device_t :=
  if x_pos ≥ OLED_SCREEN_WIDTH ∨ y_pos ≥ OLED_SCREEN_HEIGHT then device
  else
    let buffer_index := x_pos + (y_pos / 8) * OLED_SCREEN_WIDTH
    let bit_position := 2 ^ (y_pos % 8)
    { device with
      video_memory := Function.update device.video_memory buffer_index
        (if pixel_on then device.video_memory buffer_index ||| bit_position
         else device.video_memory buffer_index &&& (255 ^^^ bit_position)) }

/-- Embedding of `oled_read_pixel`: `false` out of range, otherwise tests
bit `1 << (y & 7)` of byte `x + (y >> 3) * 128`. -/
def oled_read_pixel (device : oled_device_t) (x_pos y_pos : Nat) : Bool :=
  if x_pos ≥ OLED_SCREEN_WIDTH ∨ y_pos ≥ OLED_SCREEN_HEIGHT then false
  else (device.video_memory (x_pos + (y_pos / 8) * OLED_SCREEN_WIDTH) &&& 2 ^ (y_pos % 8)) != 0

/-- Masking with a power of two is nonzero exactly when the bit is set. -/
lemma and_two_pow_ne_zero_iff (x k : Nat) : ((x &&& 2 ^ k) != 0) = x.testBit k := by
  rw [Nat.and_two_pow]
  cases h : x.testBit k
  · simp
  · simp [(Nat.two_pow_pos k).ne']

/-- In-range pixel reads are bit tests on the packed buffer. -/
lemma oled_read_pixel_testBit (device : oled_device_t) (px py : Nat)
    (hx : px < OLED_SCREEN_WIDTH) (hy : py < OLED_SCREEN_HEIGHT) :
    oled_read_pixel device px py
      = (device.video_memory (px + py / 8 * OLED_SCREEN_WIDTH)).testBit (py % 8) := by
  rw [oled_read_pixel, if_neg (by omega), and_two_pow_ne_zero_iff]

/-- Every low bit of the byte 255 is set. -/
lemma testBit_255 (i : Nat) (hi : i < 8) : (255 : Nat).testBit i = true := by
  have h : (255 : Nat) = 2 ^ 8 - 1 := by norm_num
  rw [h, Nat.testBit_two_pow_sub_one]
  simp [hi]

/-- Clearing a low bit through the byte mask `255 ^^^ 2 ^ j` leaves every
other low bit intact and zeroes bit `j`. -/
lemma testBit_and_mask (x j i : Nat) (hj : j < 8) (hi : i < 8) :
    (x &&& (255 ^^^ 2 ^ j)).testBit i = if i = j then false else x.testBit i := by
  rw [Nat.testBit_and, Nat.testBit_xor, testBit_255 i hi]
  rcases eq_or_ne i j with rfl | h
  · rw [Nat.testBit_two_pow_self, if_pos rfl]
    simp
  · rw [Nat.testBit_two_pow_of_ne (Ne.symm h), if_neg h]
    simp

/-- Writing an in-range pixel updates exactly the addressed byte of the
packed buffer. -/
lemma oled_draw_pixel_video_memory (device : oled_device_t) (a b : Nat) (v : Bool)
    (ha : a < OLED_SCREEN_WIDTH) (hb : b < OLED_SCREEN_HEIGHT) :
    (oled_draw_pixel device a b v).video_memory
      = Function.update device.video_memory (a + b / 8 * OLED_SCREEN_WIDTH)
          (if v then device.video_memory (a + b / 8 * OLED_SCREEN_WIDTH) ||| 2 ^ (b % 8)
           else device.video_memory (a + b / 8 * OLED_SCREEN_WIDTH) &&& (255 ^^^ 2 ^ (b % 8))) := by
  rw [oled_draw_pixel, if_neg (by omega)]

/-- Writing an out-of-range pixel is a no-op on the whole device. -/
lemma oled_draw_pixel_out (device : oled_device_t) (a b : Nat) (v : Bool)
    (h : a ≥ OLED_SCREEN_WIDTH ∨ b ≥ OLED_SCREEN_HEIGHT) :
    oled_draw_pixel device a b v = device := by
  rw [oled_draw_pixel, if_pos h]

/-- How one `oled_draw_pixel` call changes the value an in-range read sees:
only the addressed pixel changes, to exactly the written value. -/
lemma oled_read_pixel_draw (device : oled_device_t) (a b px py : Nat) (v : Bool)
    (hx : px < OLED_SCREEN_WIDTH) (hy : py < OLED_SCREEN_HEIGHT) :
    oled_read_pixel (oled_draw_pixel device a b v) px py
      = if a = px ∧ b = py then v else oled_read_pixel device px py := by
  by_cases hab : a ≥ OLED_SCREEN_WIDTH ∨ b ≥ OLED_SCREEN_HEIGHT
  · have hne : ¬(a = px ∧ b = py) := by
      rintro ⟨rfl, rfl⟩
      omega
    rw [oled_draw_pixel_out _ _ _ _ hab, if_neg hne]
  · push_neg at hab
    rw [oled_read_pixel_testBit _ _ _ hx hy, oled_read_pixel_testBit _ _ _ hx hy,
      oled_draw_pixel_video_memory _ _ _ _ hab.1 hab.2]
    by_cases hidx : a + b / 8 * OLED_SCREEN_WIDTH = px + py / 8 * OLED_SCREEN_WIDTH
    · -- same buffer byte: either the same pixel, or a different row of the page
      have hW : OLED_SCREEN_WIDTH = 128 := rfl
      have hax : a = px ∧ b / 8 = py / 8 := by
        rw [hW] at hidx
        constructor <;> omega
      rw [hidx, Function.update_same]
      by_cases hpix : a = px ∧ b = py
      · rw [if_pos hpix]
        obtain ⟨rfl, rfl⟩ := hpix
        cases v
        · rw [if_neg (by decide), testBit_and_mask _ _ _ (by omega) (by omega), if_pos rfl]
        · rw [if_pos rfl, Nat.testBit_or, Nat.testBit_two_pow_self, Bool.or_true]
      · rw [if_neg hpix]
        obtain ⟨rfl, hdiv⟩ := hax
        have hbne : b ≠ py := fun h => hpix ⟨rfl, h⟩
        have hmod : b % 8 ≠ py % 8 := by omega
        cases v
        · rw [if_neg (by decide), testBit_and_mask _ _ _ (by omega) (by omega),
            if_neg (Ne.symm hmod)]
        · rw [if_pos rfl, Nat.testBit_or, Nat.testBit_two_pow_of_ne hmod, Bool.or_false]
    · -- different buffer byte: the update is invisible to this read
      rw [Function.update_noteq (Ne.symm hidx), if_neg]
      rintro ⟨rfl, rfl⟩
      exact hidx rfl

/-- C6: for every in-range coordinate pair and every prior buffer content,
reading a pixel immediately after setting it returns the written value. -/
theorem draw_then_read_pixel (device : oled_device_t) (x y : Nat)
    (hx : x < OLED_SCREEN_WIDTH) (hy : y < OLED_SCREEN_HEIGHT) :
    oled_read_pixel (oled_draw_pixel device x y true) x y = true
      ∧ oled_read_pixel (oled_draw_pixel device x y false) x y = false := by
  rw [oled_read_pixel_draw _ _ _ _ _ _ hx hy, oled_read_pixel_draw _ _ _ _ _ _ hx hy]
  simp

/-- Witness for C6 at a concrete device and coordinate. -/
theorem draw_then_read_pixel_witness :
    oled_read_pixel (oled_draw_pixel (oled_device_t.mk 0x3C 128 64 (fun _ => 0) true 0xCF false) 5 9 true) 5 9 = true := by
  exact (draw_then_read_pixel _ 5 9 (by decide) (by decide)).1

/-- C7: for every out-of-range coordinate pair and every buffer content,
`oled_draw_pixel` leaves the device completely unchanged (a no-op, not an
error) and `oled_read_pixel` returns false. -/
theorem out_of_range_pixel_access (device : oled_device_t) (x y : Nat) (v : Bool)
    (h : x ≥ OLED_SCREEN_WIDTH ∨ y ≥ OLED_SCREEN_HEIGHT) :
    oled_draw_pixel device x y v = device ∧ oled_read_pixel device x y = false := by
  refine ⟨oled_draw_pixel_out _ _ _ _ h, ?_⟩
  rw [oled_read_pixel, if_pos h]

/-- Witness for C7: drawing at (128, 0) leaves a concrete device unchanged
and reading there gives false. -/
theorem out_of_range_pixel_access_witness :
    oled_draw_pixel (oled_device_t.mk 0x3C 128 64 (fun _ => 0) true 0xCF false) 128 0 true
        = oled_device_t.mk 0x3C 128 64 (fun _ => 0) true 0xCF false
      ∧ oled_read_pixel (oled_device_t.mk 0x3C 128 64 (fun _ => 0) true 0xCF false) 128 0 = false :=
  out_of_range_pixel_access _ 128 0 true (Or.inl (by decide))

/-- C10: `oled_refresh_screen` never modifies the framebuffer: whatever the
transport reports, the returned device (video memory included) is the one
passed in. -/
theorem oled_refresh_screen_preserves_video_memory (device : oled_device_t)
    (wire : i2c_wire_t) (k : Nat) :
    (oled_refresh_screen device wire k).1.video_memory = device.video_memory := rfl

/-- C4: a full refresh stages exactly `width*height/8 + 1` bytes (the data
control byte followed by the whole framebuffer) as its final bus frame, and
the call returns true precisely when the transport reports that exact count
for the bulk write (the seventh write, after the six window commands). -/
theorem oled_refresh_screen_transfer_spec (device : oled_device_t)
    (wire : i2c_wire_t) (k : Nat) :
    ∃ frame,
      (oled_refresh_screen device wire k).2.2.2.getLast? = some frame
        ∧ frame = OLED_DATA_CONTROL_BYTE ::
            (List.range OLED_VIDEO_BUFFER_SIZE).map device.video_memory
        ∧ frame.length = OLED_SCREEN_WIDTH * OLED_SCREEN_HEIGHT / 8 + 1
        ∧ ((oled_refresh_screen device wire k).2.1 = true
            ↔ wire.resp (k + 6) = (frame.length : Int)) := by
  refine ⟨OLED_DATA_CONTROL_BYTE ::
    (List.range OLED_VIDEO_BUFFER_SIZE).map device.video_memory, ?_, rfl, ?_, ?_⟩
  · rw [oled_refresh_screen]
    simp [transmit_command_sequence, transmit_command, transfer_video_data]
  · simp [OLED_VIDEO_BUFFER_SIZE, OLED_MEMORY_PAGES, OLED_SCREEN_WIDTH, OLED_SCREEN_HEIGHT]
  · rw [oled_refresh_screen]
    simp [transmit_command_sequence, transmit_command, transfer_video_data,
      OLED_VIDEO_BUFFER_SIZE, OLED_MEMORY_PAGES, OLED_SCREEN_WIDTH, OLED_SCREEN_HEIGHT]

/-- Embedding of `oled_clear_screen`: `memset(video_memory, 0x00, 1024)`. -/
def oled_clear_screen (device : oled_device_t) : oled_device_t :=
  { device with video_memory := fun i =>
      if i < OLED_VIDEO_BUFFER_SIZE then 0x00 else device.video_memory i }

/-- Embedding of `oled_adjust_brightness`: stores the level, then transmits
the contrast-select command followed by the level byte. -/
def oled_adjust_brightness (device : oled_device_t) (brightness_level : Nat)
    (wire : i2c_wire_t) (k : Nat) : oled_device_t × Nat × List (List Nat) :=
  let device' := { device with contrast_level := brightness_level }
  let r1 := transmit_command device' CMD_SET_BRIGHTNESS wire k
  let r2 := transmit_command device' brightness_level wire r1.2.1
  (device', r2.2.1, r1.2.2 ++ r2.2.2)

/-- Embedding of `oled_fade_effect`: 20 contrast steps (each one an
`oled_adjust_brightness`, which also stores the step value into
`contrast_level`), then on fade-in a final `oled_adjust_brightness` with
`device->contrast_level` as it stands after the ramp.  The `sleep_ms`
between steps has no observable effect in the model. -/
def oled_fade_effect (device : oled_device_t) (fade_in : Bool) (duration_ms : Nat)
    (wire : i2c_wire_t) (k : Nat) : oled_device_t × Nat × List (List Nat) :=
  let steps := 20
  let ramp := (List.range steps).foldl
    (fun acc i =>
      let brightness := if fade_in then i * 255 / steps else 255 - i * 255 / steps
      let r := oled_adjust_brightness acc.1 brightness wire acc.2.1
      (r.1, r.2.1, acc.2.2 ++ r.2.2))
    (device, k, [])
  if fade_in then
    let r := oled_adjust_brightness ramp.1 ramp.1.contrast_level wire ramp.2.1
    (r.1, r.2.1, ramp.2.2 ++ r.2.2)
  else ramp

/-- Embedding of `oled_initialize_display`: configures the record, clears
the buffer, then emits the fixed 25-byte register-programming sequence
through `transmit_command_sequence` (which discards every per-command
status) and returns `true` unconditionally, exactly as the C source does.
The sequence is written with the numeric values of the command macros
(`CMD_DISPLAY_DEACTIVATE` 0xAE, `CMD_SET_OSC_FREQUENCY` 0xD5, multiplex
ratio 0xA8, `CMD_SET_VERTICAL_OFFSET` 0xD3, `CMD_SET_DISPLAY_START_LINE`
0x40, `CMD_CHARGE_PUMP_CONTROL` 0x8D, `CMD_MEMORY_ADDRESSING_MODE` 0x20,
`CMD_SEGMENT_REMAP_FLIPPED` 0xA1, `CMD_COM_SCAN_DESCENDING` 0xC8,
`CMD_COM_PINS_CONFIG` 0xDA, `CMD_SET_BRIGHTNESS` 0x81,
`CMD_PRECHARGE_PERIOD` 0xD9, `CMD_VCOM_DETECTION_LEVEL` 0xDB,
`CMD_DISPLAY_FROM_RAM` 0xA4, `CMD_DISPLAY_NORMAL` 0xA6,
`CMD_DISPLAY_ACTIVATE` 0xAF) with their parameter bytes interleaved. -/
def oled_initialize_display (device : oled_device_t) (address : Nat)
    (wire : i2c_wire_t) (k : Nat) : oled_device_t × Bool × Nat × List (List Nat) :=
  let configured := { device with
    device_address := address
    screen_width := OLED_SCREEN_WIDTH
    screen_height := OLED_SCREEN_HEIGHT
    power_state := true
    contrast_level := OLED_DEFAULT_BRIGHTNESS
    inverted_colors := false }
  let cleared := oled_clear_screen configured
  let startup_sequence : List Nat :=
    [0xAE, 0xD5, 0x80, 0xA8, 0x3F, 0xD3, 0x00, 0x40, 0x8D, 0x14,
     0x20, 0x00, 0xA1, 0xC8, 0xDA, 0x12, 0x81, 0xCF, 0xD9, 0xF1,
     0xDB, 0x40, 0xA4, 0xA6, 0xAF]
  let r := transmit_command_sequence cleared startup_sequence wire k
  (cleared, true, r.1, r.2)

/-- C2 (code bug): `oled_initialize_display` returns `true` for every
transport behaviour — in particular for the one that accepts 0 bytes on
every write, under which all 25 command transfers of the startup sequence
fail.  The claim (and the header comment of the C function) says the call
must return `false` when any command transfer fails. -/
theorem oled_initialize_display_ignores_transfer_failures
    (device : oled_device_t) (address : Nat) (k : Nat) :
    (oled_initialize_display device address (i2c_wire_t.mk fun _ => 0) k).2.1 = true := rfl

/-- C1 (code bug): after a fade-in, the stored contrast is 242 — the last
ramp value `19 * 255 / 20` — and not the level stored before the fade
began (0xCF here), because the ramp already overwrote `contrast_level`
before the final "restore" read it back. -/
theorem oled_fade_effect_loses_stored_contrast :
    ((oled_fade_effect
        (oled_device_t.mk 0x3C 128 64 (fun _ => 0) true OLED_DEFAULT_BRIGHTNESS false)
        true 1000 (i2c_wire_t.mk fun _ => 2) 0).1.contrast_level = 242)
      ∧ OLED_DEFAULT_BRIGHTNESS = 207 ∧ (242 : Nat) ≠ 207 := by
  refine ⟨rfl, rfl, by decide⟩

/-- Buffer transformation of one pixel-step of `oled_horizontal_scroll`:
the C body copies `video_memory` into `backup_buffer` and then rewrites
`video_memory[page * 128 + col]` from `backup_buffer[page * 128 + src_col]`
for every page and column (so the new buffer is a pure function of the old
one, and exactly the indices below `OLED_VIDEO_BUFFER_SIZE` are written).
Here `page * 128 + col` is recovered from the flat index `i` as
`i / 128 * 128 + i % 128`, and the C `int` expression
`(col - 1 + 128) % 128` is written `(col + 128 - 1) % 128`, equal for the
non-negative `col`. -/
def scroll_shift_step (scroll_left : Bool) (buf : Nat → Nat) : Nat → Nat := fun i =>
  if i < OLED_VIDEO_BUFFER_SIZE then
    buf (i / OLED_SCREEN_WIDTH * OLED_SCREEN_WIDTH +
      (if scroll_left then (i % OLED_SCREEN_WIDTH + 1) % OLED_SCREEN_WIDTH
       else (i % OLED_SCREEN_WIDTH + OLED_SCREEN_WIDTH - 1) % OLED_SCREEN_WIDTH))
  else buf i

/-- Embedding of `oled_horizontal_scroll`: `distance_pixels` iterations,
each one shifting the buffer by one column with wraparound and then doing a
full `oled_refresh_screen` (whose result is ignored) and a `sleep_ms`. -/
def oled_horizontal_scroll (device : oled_device_t) (scroll_left : Bool)
    (speed_ms : Nat) (distance_pixels : Nat) (wire : i2c_wire_t) (k : Nat) :
    oled_device_t × Nat :=
  match distance_pixels with
  | 0 => (device, k)
  | n + 1 =>
    let shifted := { device with
      video_memory := scroll_shift_step scroll_left device.video_memory }
    let r := oled_refresh_screen shifted wire k
    oled_horizontal_scroll r.1 scroll_left speed_ms n wire r.2.2.1

/-- Refreshing returns the device it was given. -/
lemma oled_refresh_screen_fst (device : oled_device_t) (wire : i2c_wire_t) (k : Nat) :
    (oled_refresh_screen device wire k).1 = device := rfl

/-- The scroll loop's buffer is the one-column shift iterated. -/
lemma oled_horizontal_scroll_video_memory (n : Nat) :
    ∀ (device : oled_device_t) (scroll_left : Bool) (speed_ms : Nat)
      (wire : i2c_wire_t) (k : Nat),
      (oled_horizontal_scroll device scroll_left speed_ms n wire k).1.video_memory
        = (scroll_shift_step scroll_left)^[n] device.video_memory := by
  induction n with
  | zero => intro device scroll_left speed_ms wire k; rfl
  | succ n ih =>
    intro device scroll_left speed_ms wire k
    simp only [oled_horizontal_scroll]
    rw [ih, oled_refresh_screen_fst, Function.iterate_succ_apply]

/-- Indices outside the buffer are never rewritten by the shift. -/
lemma scroll_shift_step_out (scroll_left : Bool) (buf : Nat → Nat) (i : Nat)
    (hi : ¬ i < OLED_VIDEO_BUFFER_SIZE) :
    scroll_shift_step scroll_left buf i = buf i := by
  rw [scroll_shift_step, if_neg hi]

/-- Indices outside the buffer survive any number of shifts. -/
lemma scroll_shift_step_iterate_out (scroll_left : Bool) (n : Nat) :
    ∀ (buf : Nat → Nat) (i : Nat), ¬ i < OLED_VIDEO_BUFFER_SIZE →
      (scroll_shift_step scroll_left)^[n] buf i = buf i := by
  induction n with
  | zero => intro buf i hi; rfl
  | succ n ih =>
    intro buf i hi
    rw [Function.iterate_succ_apply', scroll_shift_step_out _ _ _ hi, ih _ _ hi]

/-- Iterating the shift reads the source column displaced by `n` (left) or
by `127 * n ≡ -n` (right) modulo the width. -/
lemma scroll_shift_step_iterate (scroll_left : Bool) (n : Nat) :
    ∀ (buf : Nat → Nat) (i : Nat), i < OLED_VIDEO_BUFFER_SIZE →
      (scroll_shift_step scroll_left)^[n] buf i
        = buf (i / OLED_SCREEN_WIDTH * OLED_SCREEN_WIDTH
            + (i % OLED_SCREEN_WIDTH + n * (if scroll_left then 1 else 127))
              % OLED_SCREEN_WIDTH) := by
  induction n with
  | zero =>
    intro buf i hi
    rw [Function.iterate_zero_apply]
    simp only [OLED_VIDEO_BUFFER_SIZE, OLED_SCREEN_WIDTH, OLED_MEMORY_PAGES,
      OLED_SCREEN_HEIGHT] at hi ⊢
    congr 1
    cases scroll_left <;> simp <;> omega
  | succ n ih =>
    intro buf i hi
    rw [Function.iterate_succ_apply', scroll_shift_step, if_pos hi]
    cases scroll_left
    · simp only [Bool.false_eq_true, if_false] at ih ⊢
      have hj : i / OLED_SCREEN_WIDTH * OLED_SCREEN_WIDTH
          + (i % OLED_SCREEN_WIDTH + OLED_SCREEN_WIDTH - 1) % OLED_SCREEN_WIDTH
          < OLED_VIDEO_BUFFER_SIZE := by
        simp only [OLED_VIDEO_BUFFER_SIZE, OLED_SCREEN_WIDTH, OLED_MEMORY_PAGES,
          OLED_SCREEN_HEIGHT] at hi ⊢
        omega
      rw [ih _ _ hj]
      simp only [OLED_VIDEO_BUFFER_SIZE, OLED_SCREEN_WIDTH, OLED_MEMORY_PAGES,
        OLED_SCREEN_HEIGHT] at hi ⊢
      congr 1
      omega
    · simp only [if_true] at ih ⊢
      have hj : i / OLED_SCREEN_WIDTH * OLED_SCREEN_WIDTH
          + (i % OLED_SCREEN_WIDTH + 1) % OLED_SCREEN_WIDTH
          < OLED_VIDEO_BUFFER_SIZE := by
        simp only [OLED_VIDEO_BUFFER_SIZE, OLED_SCREEN_WIDTH, OLED_MEMORY_PAGES,
          OLED_SCREEN_HEIGHT] at hi ⊢
        omega
      rw [ih _ _ hj]
      simp only [OLED_VIDEO_BUFFER_SIZE, OLED_SCREEN_WIDTH, OLED_MEMORY_PAGES,
        OLED_SCREEN_HEIGHT] at hi ⊢
      congr 1
      omega

/-- C5: scrolling by `distance_pixels = OLED_SCREEN_WIDTH`, in either
direction, returns the framebuffer byte-for-byte to its original content
(full wraparound round-trip), for every initial content. -/
theorem oled_horizontal_scroll_full_width_round_trip (device : oled_device_t)
    (scroll_left : Bool) (speed_ms : Nat) (wire : i2c_wire_t) (k : Nat) :
    (oled_horizontal_scroll device scroll_left speed_ms OLED_SCREEN_WIDTH wire k).1.video_memory
      = device.video_memory := by
  funext i
  rw [oled_horizontal_scroll_video_memory]
  by_cases hi : i < OLED_VIDEO_BUFFER_SIZE
  · rw [scroll_shift_step_iterate _ _ _ _ hi]
    simp only [OLED_VIDEO_BUFFER_SIZE, OLED_SCREEN_WIDTH, OLED_MEMORY_PAGES,
      OLED_SCREEN_HEIGHT] at hi ⊢
    congr 1
    cases scroll_left <;> simp <;> omega
  · exact scroll_shift_step_iterate_out _ _ _ _ hi

/-- Conversion of a C `int` value to a `uint8_t` function argument
(reduction modulo 256, always non-negative). -/
def uint8_of_int (z : Int) : Nat := (z % 256).toNat

/-- One iteration of the midpoint circle loop plots these eight symmetric
points, in the order of the eight `oled_draw_pixel` calls of the C body,
as `int` coordinate pairs (before the `uint8_t` conversion at the call). -/
def octant_points (cx cy x y : Int) : List (Int × Int) :=
  [(cx + x, cy + y), (cx + y, cy + x), (cx - x, cy + y), (cx - y, cy + x),
   (cx + x, cy - y), (cx + y, cy - x), (cx - x, cy - y), (cx - y, cy - x)]

/-- Midpoint circle loop of `oled_draw_circle_outline`: while `x <= y`,
plot the eight symmetric points, then `x++` and update the decision
parameter (`+= 2x + 1` when negative, else `y--` and `+= 2(x - y) + 1`,
with the updated `x` and `y` as in the C source).  The value of the list
is the sequence of plotted points. -/
def circle_midpoint_loop (cx cy : Int) (x y decision_param : Int) : List (Int × Int) :=
  if h : x ≤ y then
    octant_points cx cy x y ++
      (if decision_param < 0 then
        circle_midpoint_loop cx cy (x + 1) y (decision_param + 2 * (x + 1) + 1)
      else
        circle_midpoint_loop cx cy (x + 1) (y - 1) (decision_param + 2 * ((x + 1) - (y - 1)) + 1))
  else []
termination_by (y + 1 - x).toNat
decreasing_by
  · omega
  · omega

/-- Embedding of `oled_draw_circle_outline`: folds `oled_draw_pixel` over
the plotted points, converting each `int` coordinate to the `uint8_t`
parameter exactly as the C call does. -/
def oled_draw_circle_outline (device : oled_device_t)
    (center_x center_y radius : Nat) (border_color : Bool) : oled_device_t :=
  (circle_midpoint_loop (center_x : Int) (center_y : Int) 0 (radius : Int)
      (1 - (radius : Int))).foldl
    (fun d p => oled_draw_pixel d (uint8_of_int p.1) (uint8_of_int p.2) border_color)
    device

/-- The eight points of one iteration are closed under point reflection
through the center. -/
lemma octant_points_reflection (cx cy x y : Int) (p : Int × Int)
    (hp : p ∈ octant_points cx cy x y) :
    (2 * cx - p.1, 2 * cy - p.2) ∈ octant_points cx cy x y := by
  simp only [octant_points, List.mem_cons, List.not_mem_nil, or_false] at hp
  rcases hp with rfl | rfl | rfl | rfl | rfl | rfl | rfl | rfl <;>
    simp only [octant_points, List.mem_cons, List.not_mem_nil, or_false,
      Prod.mk.injEq] <;> omega

/-- Every point the midpoint loop plots has its reflection through the
center plotted as well, whatever the loop state. -/
lemma circle_midpoint_loop_reflection (n : Nat) :
    ∀ (cx cy x y d : Int), (y + 1 - x).toNat ≤ n →
      ∀ p ∈ circle_midpoint_loop cx cy x y d,
        (2 * cx - p.1, 2 * cy - p.2) ∈ circle_midpoint_loop cx cy x y d := by
  induction n with
  | zero =>
    intro cx cy x y d hn p hp
    rw [circle_midpoint_loop, dif_neg (by omega)] at hp
    simp at hp
  | succ n ih =>
    intro cx cy x y d hn p hp
    by_cases hxy : x ≤ y
    · rw [circle_midpoint_loop, dif_pos hxy] at hp ⊢
      rcases List.mem_append.1 hp with h | h
      · exact List.mem_append_left _ (octant_points_reflection cx cy x y p h)
      · refine List.mem_append_right _ ?_
        by_cases hd : d < 0
        · rw [if_pos hd] at h ⊢
          exact ih cx cy (x + 1) y _ (by omega) p h
        · rw [if_neg hd] at h ⊢
          exact ih cx cy (x + 1) (y - 1) _ (by omega) p h
    · rw [circle_midpoint_loop, dif_neg hxy] at hp
      simp at hp

/-- C3 (amended): for every center and radius, the set of points the
midpoint loop of `oled_draw_circle_outline` passes to `oled_draw_pixel` is
symmetric under point reflection through the center — every plotted point
`(px, py)` has `(2*cx - px, 2*cy - py)` plotted as well (in `int`
coordinates, i.e. before `oled_draw_pixel` clips what falls off-screen). -/
theorem oled_draw_circle_outline_plots_reflection (center_x center_y radius : Nat)
    (p : Int × Int)
    (hp : p ∈ circle_midpoint_loop (center_x : Int) (center_y : Int) 0 (radius : Int)
      (1 - (radius : Int))) :
    ((2 * (center_x : Int) - p.1, 2 * (center_y : Int) - p.2)
      ∈ circle_midpoint_loop (center_x : Int) (center_y : Int) 0 (radius : Int)
        (1 - (radius : Int))) :=
  circle_midpoint_loop_reflection ((radius : Int) + 1).toNat _ _ _ _ _ (by omega) p hp

/-- Witness for the amended C3 at a concrete circle: the point (11, 10)
is plotted for the circle of radius 1 centered at (10, 10), and the
theorem places its reflection (9, 10) on the plot list as well. -/
theorem oled_draw_circle_outline_plots_reflection_witness :
    ((2 * ((10 : Nat) : Int) - 11, 2 * ((10 : Nat) : Int) - 10)
      ∈ circle_midpoint_loop ((10 : Nat) : Int) ((10 : Nat) : Int) 0 ((1 : Nat) : Int)
        (1 - ((1 : Nat) : Int))) := by
  refine oled_draw_circle_outline_plots_reflection 10 10 1 (11, 10) ?_
  rw [circle_midpoint_loop]
  norm_num [octant_points]

/-- C3 as stated fails on the buffer: for the circle of radius 1 centered
at (0, 0), the pixel (1, 0) is turned on, but its reflection through the
center — `2*0 - 1 = -1`, which reaches `oled_draw_pixel` as the `uint8_t`
value 255 — is clipped and stays off, so the set of pixels turned on is
not point-symmetric when part of the circle falls off-screen. -/
theorem oled_draw_circle_outline_reflection_counterexample :
    oled_read_pixel (oled_draw_circle_outline
        (oled_device_t.mk 0x3C 128 64 (fun _ => 0) true 0xCF false) 0 0 1 true) 1 0 = true
      ∧ oled_read_pixel (oled_draw_circle_outline
        (oled_device_t.mk 0x3C 128 64 (fun _ => 0) true 0xCF false) 0 0 1 true) 255 0 = false := by
  have h2 : circle_midpoint_loop 0 0 1 0 3 = [] := by
    rw [circle_midpoint_loop]
    norm_num
  have h1 : circle_midpoint_loop 0 0 0 1 0 = octant_points 0 0 0 1 ++ circle_midpoint_loop 0 0 1 0 3 := by
    rw [circle_midpoint_loop]
    norm_num
  constructor <;>
  · simp only [oled_draw_circle_outline, Nat.cast_zero, Nat.cast_one, sub_self, h1, h2,
      octant_points]
    decide

/-- Bresenham loop of `oled_draw_line_segment`.  The C source runs
`while (true) { plot; if (cx == x2 && cy == y2) break; e2 = 2*error; if
(e2 > -dy) { error -= dy; cx += sx; } if (e2 < dx) { error += dx; cy += sy; } }`.
Both tests use `e2`, the doubled error of loop entry, so the embedding
below reuses `2 * e` in all three updated arguments.  The `while` loop is
given explicit fuel; `none` means the fuel ran out before the endpoint
test fired, and the termination theorem shows `dx + dy + 1` fuel always
suffices.  The returned list is the sequence of plotted points, the
endpoint last. -/
def bresenham_loop (fuel : Nat) (x2 y2 dx dy sx sy : Int) (cx cy e : Int) :
    Option (List (Int × Int)) :=
  match fuel with
  | 0 => none
  | fuel + 1 =>
    if cx = x2 ∧ cy = y2 then some [(cx, cy)]
    else
      match bresenham_loop fuel x2 y2 dx dy sx sy
        (if 2 * e > -dy then cx + sx else cx)
        (if 2 * e < dx then cy + sy else cy)
        (if 2 * e < dx then (if 2 * e > -dy then e - dy else e) + dx
         else (if 2 * e > -dy then e - dy else e)) with
      | none => none
      | some pts => some ((cx, cy) :: pts)

/-- Points plotted by `oled_draw_line_segment`: `dx = |x2 - x1|`,
`dy = |y2 - y1|`, steps from the coordinate comparisons, error term
`dx - dy`, starting point `(x1, y1)` — all in C `int` arithmetic. -/
def oled_draw_line_segment_trace (x1 y1 x2 y2 : Nat) : Option (List (Int × Int)) :=
  bresenham_loop
    ((|(x2 : Int) - (x1 : Int)|).toNat + (|(y2 : Int) - (y1 : Int)|).toNat + 1)
    (x2 : Int) (y2 : Int) (|(x2 : Int) - (x1 : Int)|) (|(y2 : Int) - (y1 : Int)|)
    (if x1 < x2 then 1 else -1) (if y1 < y2 then 1 else -1)
    (x1 : Int) (y1 : Int)
    ((|(x2 : Int) - (x1 : Int)|) - (|(y2 : Int) - (y1 : Int)|))

/-- Embedding of `oled_draw_line_segment`: folds `oled_draw_pixel` over the
plotted points with the `uint8_t` conversion of the C call; if the fuel
were ever insufficient (the termination theorem rules this out), the
device would be returned unchanged. -/
def oled_draw_line_segment (device : oled_device_t) (x1 y1 x2 y2 : Nat)
    (line_color : Bool) : oled_device_t :=
  match oled_draw_line_segment_trace x1 y1 x2 y2 with
  | some pts => pts.foldl
      (fun d p => oled_draw_pixel d (uint8_of_int p.1) (uint8_of_int p.2) line_color)
      device
  | none => device

/-- Invariant form of the Bresenham state after some steps: `R` and `S`
are the remaining x- and y-distances; the error term determined by them
never lets the current coordinate step past the endpoint, and every run
with enough fuel ends by plotting exactly the endpoint. -/
lemma bresenham_loop_reaches_endpoint :
    ∀ (fuel : Nat) (x2 y2 dx dy sx sy R S : Int),
      0 ≤ R → R ≤ dx → 0 ≤ S → S ≤ dy →
      (sx = 1 ∨ sx = -1) → (sy = 1 ∨ sy = -1) →
      (R + S).toNat < fuel →
      ∃ pts, bresenham_loop fuel x2 y2 dx dy sx sy (x2 - sx * R) (y2 - sy * S)
          ((dy - S + 1) * dx - (dx - R + 1) * dy) = some pts
        ∧ pts.getLast? = some (x2, y2) := by
  intro fuel
  induction fuel with
  | zero =>
    intro x2 y2 dx dy sx sy R S hR0 hRdx hS0 hSdy hsx hsy hfuel
    exact absurd hfuel (by omega)
  | succ fuel ih =>
    intro x2 y2 dx dy sx sy R S hR0 hRdx hS0 hSdy hsx hsy hfuel
    by_cases hend : R = 0 ∧ S = 0
    · obtain ⟨rfl, rfl⟩ := hend
      refine ⟨[(x2 - sx * 0, y2 - sy * 0)], ?_, by simp⟩
      rw [bresenham_loop, if_pos ⟨by ring, by ring⟩]
    · have hprod : ∀ s t : Int, (s = 1 ∨ s = -1) → s * t = 0 → t = 0 := by
        rintro s t (rfl | rfl) h <;> omega
      have hne : ¬(x2 - sx * R = x2 ∧ y2 - sy * S = y2) := by
        rintro ⟨h1, h2⟩
        exact hend ⟨hprod sx R hsx (by omega), hprod sy S hsy (by omega)⟩
      rw [bresenham_loop, if_neg hne]
      have hdx0 : (0 : Int) ≤ dx := le_trans hR0 hRdx
      have hdy0 : (0 : Int) ≤ dy := le_trans hS0 hSdy
      by_cases hax : 2 * ((dy - S + 1) * dx - (dx - R + 1) * dy) > -dy
      · -- x advances, so R must still be positive
        have hR1 : 1 ≤ R := by
          by_contra hc
          have hR : R = 0 := by omega
          have hS1 : 1 ≤ S := by omega
          have hkey : (dy - S + 1) * dx ≤ dy * dx :=
            mul_le_mul_of_nonneg_right (by omega) hdx0
          rw [hR] at hax
          nlinarith [hkey]
        by_cases hay : 2 * ((dy - S + 1) * dx - (dx - R + 1) * dy) < dx
        · -- both coordinates advance, so S must still be positive
          have hS1 : 1 ≤ S := by
            by_contra hc
            have hS : S = 0 := by omega
            have hkey : (dx - R + 1) * dy ≤ dx * dy :=
              mul_le_mul_of_nonneg_right (by omega) hdy0
            rw [hS] at hay
            nlinarith [hkey]
          obtain ⟨pts, hpts, hlast⟩ := ih x2 y2 dx dy sx sy (R - 1) (S - 1)
            (by omega) (by omega) (by omega) (by omega) hsx hsy (by omega)
          simp only [if_pos hax, if_pos hay]
          rw [show x2 - sx * R + sx = x2 - sx * (R - 1) by ring]
          rw [show y2 - sy * S + sy = y2 - sy * (S - 1) by ring]
          rw [show (dy - S + 1) * dx - (dx - R + 1) * dy - dy + dx
            = (dy - (S - 1) + 1) * dx - (dx - (R - 1) + 1) * dy by ring]
          rw [hpts]
          refine ⟨(x2 - sx * R, y2 - sy * S) :: pts, rfl, ?_⟩
          cases pts with
          | nil => simp at hlast
          | cons q qs => rw [List.getLast?_cons_cons]; exact hlast
        · -- only x advances
          obtain ⟨pts, hpts, hlast⟩ := ih x2 y2 dx dy sx sy (R - 1) S
            (by omega) (by omega) (by omega) (by omega) hsx hsy (by omega)
          simp only [if_pos hax, if_neg hay]
          rw [show x2 - sx * R + sx = x2 - sx * (R - 1) by ring]
          rw [show (dy - S + 1) * dx - (dx - R + 1) * dy - dy
            = (dy - S + 1) * dx - (dx - (R - 1) + 1) * dy by ring]
          rw [hpts]
          refine ⟨(x2 - sx * R, y2 - sy * S) :: pts, rfl, ?_⟩
          cases pts with
          | nil => simp at hlast
          | cons q qs => rw [List.getLast?_cons_cons]; exact hlast
      · -- x stays: S is still positive and y must advance
        have hS1 : 1 ≤ S := by
          by_contra hc
          have hS : S = 0 := by omega
          have hR1 : 1 ≤ R := by omega
          have hkey : (dx - R + 1) * dy ≤ dx * dy :=
            mul_le_mul_of_nonneg_right (by omega) hdy0
          rw [hS] at hax
          exact hax (by nlinarith [hkey])
        have hay : 2 * ((dy - S + 1) * dx - (dx - R + 1) * dy) < dx := by
          push_neg at hax
          linarith
        obtain ⟨pts, hpts, hlast⟩ := ih x2 y2 dx dy sx sy R (S - 1)
          (by omega) (by omega) (by omega) (by omega) hsx hsy (by omega)
        simp only [if_neg hax, if_pos hay]
        rw [show y2 - sy * S + sy = y2 - sy * (S - 1) by ring]
        rw [show (dy - S + 1) * dx - (dx - R + 1) * dy + dx
          = (dy - (S - 1) + 1) * dx - (dx - R + 1) * dy by ring]
        rw [hpts]
        refine ⟨(x2 - sx * R, y2 - sy * S) :: pts, rfl, ?_⟩
        cases pts with
        | nil => simp at hlast
        | cons q qs => rw [List.getLast?_cons_cons]; exact hlast

/-- C9: for every pair of endpoints, the Bresenham loop of
`oled_draw_line_segment` terminates (the fuel `dx + dy + 1` is never
exhausted), plots at least one point, and the endpoint `(x2, y2)` is the
last point plotted — for all eight octants, including the degenerate
horizontal, vertical and single-point lines, which are just instances of
the universally quantified endpoints. -/
theorem oled_draw_line_segment_terminates_at_endpoint (x1 y1 x2 y2 : Nat) :
    ∃ pts, oled_draw_line_segment_trace x1 y1 x2 y2 = some pts
      ∧ pts ≠ [] ∧ pts.getLast? = some ((x2 : Int), (y2 : Int)) := by
  have hsx : (if x1 < x2 then (1 : Int) else -1) = 1
      ∨ (if x1 < x2 then (1 : Int) else -1) = -1 := by
    by_cases h : x1 < x2 <;> simp [h]
  have hsy : (if y1 < y2 then (1 : Int) else -1) = 1
      ∨ (if y1 < y2 then (1 : Int) else -1) = -1 := by
    by_cases h : y1 < y2 <;> simp [h]
  have hx : (x1 : Int)
      = (x2 : Int) - (if x1 < x2 then (1 : Int) else -1) * |(x2 : Int) - (x1 : Int)| := by
    by_cases h : x1 < x2
    · rw [if_pos h, abs_of_nonneg (sub_nonneg.mpr (by exact_mod_cast h.le))]
      omega
    · rw [if_neg h, abs_of_nonpos (sub_nonpos.mpr (by exact_mod_cast Nat.le_of_not_lt h))]
      omega
  have hy : (y1 : Int)
      = (y2 : Int) - (if y1 < y2 then (1 : Int) else -1) * |(y2 : Int) - (y1 : Int)| := by
    by_cases h : y1 < y2
    · rw [if_pos h, abs_of_nonneg (sub_nonneg.mpr (by exact_mod_cast h.le))]
      omega
    · rw [if_neg h, abs_of_nonpos (sub_nonpos.mpr (by exact_mod_cast Nat.le_of_not_lt h))]
      omega
  have hdx0 : (0 : Int) ≤ |(x2 : Int) - (x1 : Int)| := abs_nonneg _
  have hdy0 : (0 : Int) ≤ |(y2 : Int) - (y1 : Int)| := abs_nonneg _
  obtain ⟨pts, hpts, hlast⟩ := bresenham_loop_reaches_endpoint
    ((|(x2 : Int) - (x1 : Int)|).toNat + (|(y2 : Int) - (y1 : Int)|).toNat + 1)
    (x2 : Int) (y2 : Int) (|(x2 : Int) - (x1 : Int)|) (|(y2 : Int) - (y1 : Int)|)
    (if x1 < x2 then (1 : Int) else -1) (if y1 < y2 then (1 : Int) else -1)
    (|(x2 : Int) - (x1 : Int)|) (|(y2 : Int) - (y1 : Int)|)
    hdx0 le_rfl hdy0 le_rfl hsx hsy (by omega)
  refine ⟨pts, ?_, ?_, hlast⟩
  · rw [show ((|(y2 : Int) - (y1 : Int)|) - (|(y2 : Int) - (y1 : Int)|) + 1) * (|(x2 : Int) - (x1 : Int)|)
        - ((|(x2 : Int) - (x1 : Int)|) - (|(x2 : Int) - (x1 : Int)|) + 1) * (|(y2 : Int) - (y1 : Int)|)
      = (|(x2 : Int) - (x1 : Int)|) - (|(y2 : Int) - (y1 : Int)|) by ring, ← hx, ← hy] at hpts
    rw [oled_draw_line_segment_trace]
    exact hpts
  · intro hnil
    rw [hnil] at hlast
    simp at hlast

/-- Embedding of `oled_calculate_text_width`: `strlen(text) * 7` computed in
`size_t` and returned as `uint16_t`.  Strings are modelled as the list of
their byte values (the C string's characters up to the terminating NUL). -/
def oled_calculate_text_width (text_string : List Nat) : Nat :=
  text_string.length * 7 % 65536

/-- Embedding of `oled_draw_filled_rectangle`: for every row below
`rect_height` and column below `rect_width`, draw the pixel at
`(origin_x + col, origin_y + row)`; the sums are C `int` values converted
to the `uint8_t` parameters of `oled_draw_pixel`, hence the `% 256`. -/
def oled_draw_filled_rectangle (device : oled_device_t) (origin_x origin_y : Nat)
    (rect_width rect_height : Nat) (fill_color : Bool) : oled_device_t :=
  (List.range rect_height).foldl
    (fun drow row =>
      (List.range rect_width).foldl
        (fun dcol col =>
          oled_draw_pixel dcol ((origin_x + col) % 256) ((origin_y + row) % 256) fill_color)
        drow)
    device

/-- The coordinate pairs `oled_draw_filled_rectangle` draws, row-major. -/
def rect_points (origin_x origin_y rect_width rect_height : Nat) : List (Nat × Nat) :=
  ((List.range rect_height).map (fun row =>
    (List.range rect_width).map (fun col =>
      ((origin_x + col) % 256, (origin_y + row) % 256)))).flatten

/-- Glyph pass of `oled_render_highlighted_text`: while characters remain
and `cursor_position < OLED_SCREEN_WIDTH`, for a printable character look
up its font columns and clear (draw `false`) every pixel whose glyph bit is
on, then advance the cursor by 7; a non-printable character only advances
the cursor.  `font` is the `FONT_MATRIX_6x8` table (not part of the
repository snapshot), passed as a function from glyph index and column to
the column byte. -/
def highlight_glyph_pass (font : Nat → Nat → Nat) (text_y : Nat) :
    oled_device_t → Nat → List Nat → oled_device_t
  | device, _, [] => device
  | device, cursor_position, c :: rest =>
    if cursor_position < OLED_SCREEN_WIDTH then
      highlight_glyph_pass font text_y
        (if 32 ≤ c ∧ c ≤ 126 then
          (List.range 6).foldl
            (fun dcol column =>
              (List.range 8).foldl
                (fun dbit bit =>
                  if (font (c - 32) column).testBit bit then
                    oled_draw_pixel dbit ((cursor_position + column) % 256)
                      ((text_y + bit) % 256) false
                  else dbit)
                dcol)
            device
        else device)
        (cursor_position + 7) rest
    else device

/-- The pixels one printable glyph clears: positions of the on-bits of its
six font columns, relative to the cursor. -/
def glyph_clear_points (font : Nat → Nat → Nat) (c cursor_position text_y : Nat) :
    List (Nat × Nat) :=
  ((List.range 6).map (fun column =>
    (List.range 8).filterMap (fun bit =>
      if (font (c - 32) column).testBit bit then
        some (((cursor_position + column) % 256, (text_y + bit) % 256))
      else none))).flatten

/-- All pixels the glyph pass clears, over the rendered prefix of the
string. -/
def highlight_clear_points (font : Nat → Nat → Nat) (text_y : Nat) :
    Nat → List Nat → List (Nat × Nat)
  | _, [] => []
  | cursor_position, c :: rest =>
    if cursor_position < OLED_SCREEN_WIDTH then
      (if 32 ≤ c ∧ c ≤ 126 then glyph_clear_points font c cursor_position text_y else [])
        ++ highlight_clear_points font text_y (cursor_position + 7) rest
    else []

/-- Embedding of `oled_render_highlighted_text`: paint the highlight
rectangle `text_width + 1` wide and 10 tall at `(text_x - 1, text_y - 1)`
(the `uint8_t` wraparounds written out), then run the glyph-clearing
pass from `text_x`. -/
def oled_render_highlighted_text (font : Nat → Nat → Nat) (device : oled_device_t)
    (text_x text_y : Nat) (text_string : List Nat) : oled_device_t :=
  highlight_glyph_pass font text_y
    (oled_draw_filled_rectangle device ((text_x + 255) % 256) ((text_y + 255) % 256)
      ((oled_calculate_text_width text_string + 1) % 256) 10 true)
    text_x text_string

/-- Reading after folding a same-colour `oled_draw_pixel` over a point list:
listed pixels read the written colour, all others are untouched. -/
lemma oled_read_pixel_foldl (v : Bool) (ps : List (Nat × Nat)) :
    ∀ (device : oled_device_t) (px py : Nat),
      px < OLED_SCREEN_WIDTH → py < OLED_SCREEN_HEIGHT →
      oled_read_pixel (ps.foldl (fun d p => oled_draw_pixel d p.1 p.2 v) device) px py
        = if (px, py) ∈ ps then v else oled_read_pixel device px py := by
  induction ps with
  | nil =>
    intro device px py hx hy
    simp
  | cons a as ih =>
    intro device px py hx hy
    obtain ⟨a1, a2⟩ := a
    rw [List.foldl_cons, ih _ _ _ hx hy, oled_read_pixel_draw _ _ _ _ _ _ hx hy]
    by_cases h1 : (px, py) ∈ as
    · rw [if_pos h1, if_pos (List.mem_cons_of_mem _ h1)]
    · rw [if_neg h1]
      by_cases h2 : a1 = px ∧ a2 = py
      · obtain ⟨rfl, rfl⟩ := h2
        rw [if_pos ⟨rfl, rfl⟩, if_pos (List.mem_cons_self _ _)]
      · rw [if_neg h2, if_neg ?hmem]
        case hmem =>
          rw [List.mem_cons]
          rintro (hp | hp)
          · exact h2 ⟨congrArg Prod.fst hp.symm, congrArg Prod.snd hp.symm⟩
          · exact h1 hp

/-- The filled rectangle is the fold of `oled_draw_pixel` over its point
list. -/
lemma oled_draw_filled_rectangle_eq_foldl (device : oled_device_t)
    (origin_x origin_y rect_width rect_height : Nat) (fill_color : Bool) :
    oled_draw_filled_rectangle device origin_x origin_y rect_width rect_height fill_color
      = (rect_points origin_x origin_y rect_width rect_height).foldl
          (fun d p => oled_draw_pixel d p.1 p.2 fill_color) device := by
  rw [oled_draw_filled_rectangle, rect_points, List.foldl_flatten, List.foldl_map]
  congr 1
  funext drow row
  rw [List.foldl_map]

/-- Folding a conditional clear over the bit range equals folding the plain
clear over the filtered bit positions. -/
lemma foldl_clear_bits (mask : Nat) (gx gy : Nat → Nat) (l : List Nat) :
    ∀ (device : oled_device_t),
      l.foldl (fun d bit => if mask.testBit bit then
          oled_draw_pixel d (gx bit) (gy bit) false else d) device
        = (l.filterMap (fun bit => if mask.testBit bit then
            some (gx bit, gy bit) else none)).foldl
            (fun d p => oled_draw_pixel d p.1 p.2 false) device := by
  induction l with
  | nil => intro device; rfl
  | cons b l ih =>
    intro device
    rw [List.foldl_cons, List.filterMap_cons]
    cases h : mask.testBit b
    · simp only [Bool.false_eq_true, if_false]
      exact ih device
    · simp only [if_true, List.foldl_cons]
      exact ih (oled_draw_pixel device (gx b) (gy b) false)

/-- One printable glyph's clearing double loop is the fold over its clear
points. -/
lemma highlight_glyph_one_eq_foldl (font : Nat → Nat → Nat)
    (c cursor_position text_y : Nat) (device : oled_device_t) :
    (List.range 6).foldl
      (fun dcol column =>
        (List.range 8).foldl
          (fun dbit bit =>
            if (font (c - 32) column).testBit bit then
              oled_draw_pixel dbit ((cursor_position + column) % 256)
                ((text_y + bit) % 256) false
            else dbit)
          dcol)
      device
      = (glyph_clear_points font c cursor_position text_y).foldl
          (fun d p => oled_draw_pixel d p.1 p.2 false) device := by
  rw [glyph_clear_points, List.foldl_flatten, List.foldl_map]
  congr 1
  funext dcol column
  exact foldl_clear_bits (font (c - 32) column)
    (fun _ => (cursor_position + column) % 256) (fun bit => (text_y + bit) % 256)
    (List.range 8) dcol

/-- The whole glyph pass is the fold over all clear points. -/
lemma highlight_glyph_pass_eq_foldl (font : Nat → Nat → Nat) (text_y : Nat)
    (text_string : List Nat) :
    ∀ (device : oled_device_t) (cursor_position : Nat),
      highlight_glyph_pass font text_y device cursor_position text_string
        = (highlight_clear_points font text_y cursor_position text_string).foldl
            (fun d p => oled_draw_pixel d p.1 p.2 false) device := by
  induction text_string with
  | nil => intro device cursor_position; rfl
  | cons c rest ih =>
    intro device cursor_position
    rw [highlight_glyph_pass, highlight_clear_points]
    by_cases hcur : cursor_position < OLED_SCREEN_WIDTH
    · rw [if_pos hcur, if_pos hcur, ih, List.foldl_append]
      congr 1
      by_cases hc : 32 ≤ c ∧ c ≤ 126
      · rw [if_pos hc, if_pos hc, highlight_glyph_one_eq_foldl]
      · rw [if_neg hc, if_neg hc]
        rfl
    · rw [if_neg hcur, if_neg hcur]
      rfl

/-- C8: `oled_render_highlighted_text` first paints the filled background
box (`text_width + 1` wide, 10 tall, at `(text_x - 1, text_y - 1)` in
`uint8_t` arithmetic) and then turns off exactly the glyph-bit pixels:
after the call a visible pixel reads `false` if some glyph bit cleared it,
`true` if it lies in the background box and no glyph bit cleared it, and
its previous value otherwise — in particular the pass never sets a
foreground pixel. -/
theorem oled_render_highlighted_text_pixels (font : Nat → Nat → Nat)
    (device : oled_device_t) (text_x text_y : Nat) (text_string : List Nat)
    (px py : Nat) (hx : px < OLED_SCREEN_WIDTH) (hy : py < OLED_SCREEN_HEIGHT) :
    oled_read_pixel (oled_render_highlighted_text font device text_x text_y text_string) px py
      = if (px, py) ∈ highlight_clear_points font text_y text_x text_string then false
        else if (px, py) ∈ rect_points ((text_x + 255) % 256) ((text_y + 255) % 256)
            ((oled_calculate_text_width text_string + 1) % 256) 10 then true
        else oled_read_pixel device px py := by
  rw [oled_render_highlighted_text, highlight_glyph_pass_eq_foldl,
    oled_read_pixel_foldl false _ _ _ _ hx hy, oled_draw_filled_rectangle_eq_foldl,
    oled_read_pixel_foldl true _ _ _ _ hx hy]

/-- Witness for C8 with the all-zero font table, the empty device and the
one-character string [65]: no glyph bit is on, so the pixel (0, 0) of the
background box (painted from (0, 0) with width 8) reads true. -/
theorem oled_render_highlighted_text_pixels_witness :
    oled_read_pixel (oled_render_highlighted_text (fun _ _ => 0)
        (oled_device_t.mk 0x3C 128 64 (fun _ => 0) true 0xCF false) 1 1 [65]) 0 0 = true := by
  rw [oled_render_highlighted_text_pixels (fun _ _ => 0) _ 1 1 [65] 0 0
    (by decide) (by decide)]
  decide
